import Mathlib

/-!
Verification of the qiskit-terra pulse-scheduling core (fork lcapelluto/qiskit-terra).

Shallow embedding of:
* `qiskit/pulse/timeslots.py` — `Interval`, `Timeslot`, `TimeslotCollection`;
* `qiskit/pulse/timing.py` — `_overlaps`, `_insertion_index` (the tuple-interval
  helpers used by `qiskit/pulse/schedule.py`; `schedule.py` imports the same
  functions under the names `Interval`/`insertion_index` from `qiskit.pulse.utils`);
* `qiskit/pulse/schedule.py` — `Schedule` (timeslot table, `_add_timeslots`,
  `union`, `insert`, `append`, `shift`, `instructions`) and
  `ParameterizedSchedule.bind_parameters`;
* `qiskit/scheduler/methods/basic.py` — `translate_gates_to_pulse_defs`,
  `as_soon_as_possible`, `as_late_as_possible`;
* `qiskit/scheduler/schedule.py` and `qiskit/scheduler/basic_scheduler.py` —
  the `schedule` entry points' configuration resolution, and `format_meas_map`.

Machine integers are embedded as `Int` (Python ints are unbounded), fallible
code as `Except PulseErr`.  Python's in-place mutation of a freshly created
object (`Schedule.union` builds `new_sched` and mutates only it) is embedded as
explicit state passing over the object under construction; the receiver enters
the operations read-only, mirroring the source, so composition operators are
functions returning new values.
-/

namespace QiskitPulse

/-- Error taxonomy of the embedded code paths.  `overlap` stands for the
`PulseError`s raised on timeslot conflicts, `undefinedOperation` for a failed
catalogue lookup, `unexpectedKeyword`/`multipleValues` for the two
`ParameterMismatch` messages of `ParameterizedSchedule.bind_parameters`,
`missingConfig` for the `QiskitError("Must supply either a backend or ...")`
checks of the scheduler entry points, and `attributeError` for Python's
`AttributeError` raised when a method is called on `None`. -/
inductive PulseErr where
  | overlap
  | undefinedOperation (name : String) (qubits : List Nat)
  | unexpectedKeyword (key : String)
  | multipleValues (key : String)
  | missingConfig (what : String)
  | attributeError
  deriving DecidableEq, Repr

/-! ## `timeslots.py`: `Interval` -/

/-- Embeds `Interval` of `qiskit/pulse/timeslots.py`: a begin/end pair.  The Python
constructor validates `0 ≤ begin ≤ end`; the record itself carries no proof,
validity is a hypothesis where a theorem needs it. -/
structure Interval where
  begin' : Int
  end' : Int
  deriving DecidableEq, Repr

/-- Embeds `Interval.has_overlap` (timeslots.py lines 66-77):
`self.begin < interval.end and interval.begin < self.end`. -/
def Interval.hasOverlap (self other : Interval) : Bool :=
  if self.begin' < other.end' ∧ other.begin' < self.end' then true else false

/-- Embeds `Interval.shift` (timeslots.py lines 79-88). -/
def Interval.shift (self : Interval) (time : Int) : Interval :=
  ⟨self.begin' + time, self.end' + time⟩

/-! ## `timing.py`: tuple intervals, `_overlaps`, `_insertion_index`

`qiskit/pulse/timing.py` works on plain `(start, stop)` tuples
(`Interval = Tuple[int, int]`); `qiskit/pulse/schedule.py` consumes the same
helpers (as `qiskit.pulse.utils.insertion_index`) on `Interval(start, stop)`
namedtuples.  Both are embedded as `Int × Int`. -/

/-- A `(start, stop)` interval tuple of `timing.py` / the `Interval` namedtuple
consumed by `schedule.py`. -/
abbrev Iv := Int × Int

/-- Embeds `_overlaps` (timing.py lines 108-118): the special case returning `False`
when `first[0] == second[0] == second[1]`, the conditional swap putting the
earlier-starting interval first, then `second[0] < first[1]`. -/
def overlapsT (first second : Iv) : Bool :=
  if first.1 = second.1 ∧ second.1 = second.2 then
    false
  else
    let p := if first.1 > second.1 then (second, first) else (first, second)
    decide (p.2.1 < p.1.2)

/-- The halving recursion of `_insertion_index`, under a fuel bound so that
the recursion is structural (and hence evaluates); each recursive call strictly
shrinks the interval list, so fuel equal to the initial list length is never
exhausted (`insertionIndexGo_fuel_irrelevant`). -/
def insertionIndexGo : Nat → List Iv → Iv → Nat → Except PulseErr Nat
  | _, [], _, index => .ok index
  | _, [only], newInterval, index =>
    if overlapsT only newInterval then .error .overlap
    else .ok (if newInterval.1 < only.1 then index else index + 1)
  | fuel + 1, a :: b :: rest, newInterval, index =>
    let midIdx := (a :: b :: rest).length / 2
    if newInterval.1 < ((a :: b :: rest).getD midIdx (0, 0)).1 then
      insertionIndexGo fuel ((a :: b :: rest).take midIdx) newInterval index
    else
      insertionIndexGo fuel ((a :: b :: rest).drop midIdx) newInterval (index + midIdx)
  | 0, _ :: _ :: _, _, index => .ok index

/-- Embeds `_insertion_index` (timing.py lines 80-105): binary search on start times;
raises on overlap with the single interval the search narrows down to. -/
def insertionIndex (intervals : List Iv) (newInterval : Iv) (index : Nat) :
    Except PulseErr Nat :=
  insertionIndexGo intervals.length intervals newInterval index

/-- Any fuel at least the list length drives `insertionIndexGo` to the same
result: the fuel bound is an evaluation device, not part of the algorithm. -/
theorem insertionIndexGo_fuel_irrelevant :
    ∀ (fuel fuel' : Nat) (l : List Iv) (i : Iv) (index : Nat),
      l.length ≤ fuel → l.length ≤ fuel' →
      insertionIndexGo fuel l i index = insertionIndexGo fuel' l i index := by
  intro fuel
  induction fuel with
  | zero =>
    intro fuel' l i index h _
    match l, h with
    | [], _ => cases fuel' <;> rfl
    | [only], h => simp at h
  | succ fuel ih =>
    intro fuel' l i index h h'
    match l with
    | [] => cases fuel' <;> rfl
    | [only] => cases fuel' <;> rfl
    | a :: b :: rest =>
      match fuel', h' with
      | fuel' + 1, h' =>
        simp only [insertionIndexGo]
        split
        · exact ih fuel' _ i index (by simp [List.length_take] at *; omega)
            (by simp [List.length_take] at *; omega)
        · exact ih fuel' _ i _ (by simp [List.length_drop] at *; omega)
            (by simp [List.length_drop] at *; omega)

/-! ## `channels.py`: channel identity

`Channel.__eq__` compares `type(self) is type(other) and self._index == other._index`;
the channel's `buffer` attribute does not take part in equality or hashing, so it
is not a field of the embedded key. -/

/-- Channel kind (the Python subclass of `Channel`). -/
inductive ChanKind where
  | drive | measure | control | acquire | memSlot | regSlot | snapshot
  deriving DecidableEq, Repr

/-- A channel key: `(type, index)`, exactly what `Channel.__eq__`/`__hash__`
compare (channels.py lines 66-71). -/
structure Chan where
  kind : ChanKind
  index : Int
  deriving DecidableEq, Repr

/-! ## `schedule.py`: the `Schedule` tree -/

/-- A leaf `Instruction` as seen by `schedule.py`: a named fragment with a
duration, the channels it occupies (each for `[0, duration)`), and a `buffer`
attribute (instructions inherit a buffer from their channels; `Schedule.insert`
reads `schedule.buffer` and `self.buffer`). -/
structure Inst where
  name : String
  duration : Int
  channels : List Chan
  buffer : Int
  deriving DecidableEq, Repr

/-- The timeslot table `Dict[Channel, List[Interval]]` of `Schedule`; an
association list in Python dict insertion order. -/
abbrev Table := List (Chan × List Iv)

/-- A node of the schedule tree: either a leaf instruction or a composite
`Schedule` with its name, aggregate duration, timeslot table, ordered
`(offset, child)` list and buffer. -/
inductive SchedTree where
  | leaf (inst : Inst)
  | node (name : Option String) (duration : Int) (timeslots : Table)
      (children : List (Int × SchedTree)) (buffer : Int)

/-- The timeslot table of an `Instruction`: every channel it touches is
occupied for `Interval(0, duration)`. -/
def Inst.table (i : Inst) : Table :=
  i.channels.map fun c => (c, [((0 : Int), i.duration)])

/-- Embeds `ScheduleComponent.duration`. -/
def SchedTree.duration : SchedTree → Int
  | .leaf i => i.duration
  | .node _ d _ _ _ => d

/-- Embeds `ScheduleComponent.buffer`. -/
def SchedTree.buffer : SchedTree → Int
  | .leaf i => i.buffer
  | .node _ _ _ _ b => b

/-- Embeds `ScheduleComponent._timeslots`. -/
def SchedTree.timeslots : SchedTree → Table
  | .leaf i => i.table
  | .node _ _ ts _ _ => ts

/-- Embeds `ScheduleComponent.channels`: the keys of the timeslot table, in dict
order. -/
def SchedTree.channels (s : SchedTree) : List Chan :=
  s.timeslots.map Prod.fst

/-- The mutable state of the `Schedule` object a composition operator is
building (`new_sched` in `Schedule.union`): everything `_add_timeslots` and
`_union` write. -/
structure BuildState where
  name : Option String
  duration : Int
  timeslots : Table
  children : List (Int × SchedTree)
  buffer : Int

/-- Update one key of the table in place, leaving dict order unchanged. -/
def Table.setCh (t : Table) (ch : Chan) (l : List Iv) : Table :=
  t.map fun kv => if kv.1 = ch then (kv.1, l) else kv

/-- The per-channel merge loop of `Schedule._add_timeslots` (schedule.py lines
383-390): for each incoming interval, if it starts at or after the stop of the
last recorded interval the rest of the incoming list is appended wholesale;
otherwise `insertion_index` locates (or rejects) an insertion point.
`existing` re-reads the updated list each iteration, like
`self._timeslots[channel]`.  (The source never reaches this loop with an empty
existing list; that case is mapped to the plain append.) -/
def mergeChannelIntervals : List Iv → List Iv → Except PulseErr (List Iv)
  | existing, [] => .ok existing
  | existing, interval :: rest =>
    match existing.getLast? with
    | none => .ok (interval :: rest)
    | some last =>
      if interval.1 ≥ last.2 then
        .ok (existing ++ interval :: rest)
      else do
        let index ← insertionIndex existing interval 0
        mergeChannelIntervals (existing.insertIdx index interval) rest

/-- Embeds `Schedule._add_timeslots` (schedule.py lines 363-390), acting on the state
of the schedule under construction: updates `_duration` and merges every
channel of the inserted component, shifted by `time`. -/
def addTimeslots (st : BuildState) (time : Int) (sched : SchedTree) :
    Except PulseErr BuildState := do
  let st := { st with duration := max st.duration (time + sched.duration) }
  let ts ← sched.timeslots.foldlM (fun table (channel, ivs) => do
    let channelIntervals := ivs.map fun i => (i.1 + time, i.2 + time)
    match table.lookup channel with
    | none => pure (table ++ [(channel, channelIntervals)])
    | some existing => do
      let merged ← mergeChannelIntervals existing channelIntervals
      pure (Table.setCh table channel merged)) st.timeslots
  pure { st with timeslots := ts }

/-- Embeds `Schedule._union` (schedule.py lines 176-192): merge the timeslots, take the
max buffer, and splice a `Schedule` argument's children (shifted) directly into
the receiver's child list, while an `Instruction` argument is appended as one
`(time, instruction)` pair. -/
def unionInto (st : BuildState) (other : Int × SchedTree) :
    Except PulseErr BuildState := do
  let (shiftTime, sched) := other
  let st ← addTimeslots st shiftTime sched
  let st := { st with buffer := max st.buffer sched.buffer }
  match sched with
  | .node _ _ _ children _ =>
    let shifted := if shiftTime ≠ 0 then
        children.map (fun tc => (tc.1 + shiftTime, tc.2)) else children
    pure { st with children := st.children ++ shifted }
  | .leaf _ =>
    pure { st with children := st.children ++ [other] }

/-- Seal a build state into a `Schedule` node. -/
def BuildState.toTree (st : BuildState) : SchedTree :=
  .node st.name st.duration st.timeslots st.children st.buffer

/-- The `Schedule(*schedules, name=...)` constructor (schedule.py lines 32-63):
children are the given `(start_time, child)` pairs, timeslots are accumulated
with `_add_timeslots`, and the buffer is the max over the children. -/
def mkSchedule (pairs : List (Int × SchedTree)) (name : Option String := none) :
    Except PulseErr SchedTree := do
  let st₀ : BuildState := ⟨name, 0, [], [], 0⟩
  let st ← pairs.foldlM (fun st (time, sched) => do
    let st ← addTimeslots st time sched
    pure { st with children := st.children ++ [(time, sched)] }) st₀
  let buf := match st.children.map fun tc => tc.2.buffer with
    | [] => 0
    | b :: rest => rest.foldl max b
  pure { st with buffer := buf }.toTree

/-- Embeds `Schedule.union` (schedule.py lines 158-174): a fresh `Schedule` is built
and `_union`ed with `(0, self)` and then each argument pair.  On failure the
half-built fresh object is discarded; the receiver was only read. -/
def SchedTree.union (self : SchedTree) (schedules : List (Int × SchedTree))
    (name : Option String := none) : Except PulseErr SchedTree := do
  let st₀ : BuildState := ⟨name, 0, [], [], 0⟩
  let st ← unionInto st₀ (0, self)
  let st ← schedules.foldlM unionInto st
  pure st.toTree

/-- Embeds `Schedule.ch_stop_time` (schedule.py lines 132-143): the max over the given
channels (present in the table) of the stop of the channel's last interval,
`0` when none of them is recorded. -/
def SchedTree.chStopTime (self : SchedTree) (channels : List Chan) : Int :=
  let stops := channels.filterMap fun chan =>
    (self.timeslots.lookup chan).bind fun intervals =>
      intervals.getLast?.map Prod.snd
  match stops with
  | [] => 0
  | s :: rest => rest.foldl max s

/-- Embeds `Schedule.insert` (schedule.py lines 205-217): with `buffer` set and a
buffered fragment at a positive time, the receiver's buffer is added to the
start time; then delegates to `union`. -/
def SchedTree.insert (self : SchedTree) (startTime : Int) (schedule : SchedTree)
    (buffer : Bool := false) (name : Option String := none) :
    Except PulseErr SchedTree :=
  let startTime := if buffer ∧ schedule.buffer ≠ 0 ∧ startTime > 0 then
      startTime + self.buffer else startTime
  self.union [(startTime, schedule)] name

/-- Embeds `Schedule.append` (schedule.py lines 219-233): insert at the max stop time
over the channels shared with the fragment, with `buffer=True` by default. -/
def SchedTree.append (self : SchedTree) (schedule : SchedTree)
    (buffer : Bool := true) (name : Option String := none) :
    Except PulseErr SchedTree :=
  let commonChannels := self.channels.filter (· ∈ schedule.channels)
  let time := self.chStopTime commonChannels
  self.insert time schedule buffer name

/-- Embeds `Schedule.shift` (schedule.py lines 194-203): wrap the receiver in a new
single-child schedule.  (The constructor cannot fail here: the fresh table
adopts every channel wholesale.) -/
def SchedTree.shiftS (self : SchedTree) (time : Int) (name : Option String := none) :
    Except PulseErr SchedTree :=
  mkSchedule [(time, self)] name

/-- Embeds `Schedule._instructions` (schedule.py lines 145-156) flattening, before
sorting: leaves with their absolute times in tree order. -/
def SchedTree.rawInstructions : SchedTree → Int → List (Int × Inst)
  | .leaf i, time => [(time, i)]
  | .node _ _ _ children _, time => rawInstructionsList children time
where
  /-- Children traversal of `_instructions`. -/
  rawInstructionsList : List (Int × SchedTree) → Int → List (Int × Inst)
  | [], _ => []
  | (insertTime, child) :: rest, time =>
    child.rawInstructions (time + insertTime) ++ rawInstructionsList rest time

/-- The sort key of `Schedule.instructions` (schedule.py lines 102-105):
`(time, duration, min channel index)`. -/
def instKey (ti : Int × Inst) : Int × Int × Int :=
  let minIdx := match ti.2.channels.map Chan.index with
    | [] => 0
    | x :: xs => xs.foldl min x
  (ti.1, ti.2.duration, minIdx)

/-- Strict lexicographic comparison of instruction sort keys. -/
def instKeyLt (x y : Int × Inst) : Bool :=
  let a := instKey x
  let b := instKey y
  decide (a.1 < b.1 ∨ (a.1 = b.1 ∧ (a.2.1 < b.2.1 ∨ (a.2.1 = b.2.1 ∧ a.2.2 < b.2.2))))

/-- Stable insertion for `sorted(...)`: scanning an already-sorted tail of
later elements, the inserted (earlier) element goes before the first element
whose key is not strictly smaller. -/
def stableInsert (x : Int × Inst) : List (Int × Inst) → List (Int × Inst)
  | [] => [x]
  | y :: ys => if instKeyLt y x then y :: stableInsert x ys else x :: y :: ys

/-- Embeds `sorted(iterable, key=key)` — a stable sort by the instruction key. -/
def stableSortInsts (l : List (Int × Inst)) : List (Int × Inst) :=
  l.foldr stableInsert []

/-- Embeds `Schedule.instructions` (schedule.py lines 98-107): the flattened
`(absolute_time, instruction)` pairs sorted by
`(time, duration, min channel index)`. -/
def SchedTree.instructions (self : SchedTree) : List (Int × Inst) :=
  stableSortInsts (self.rawInstructions 0)

/-! ## `timeslots.py`: `Timeslot`, `TimeslotCollection` -/

/-- Embeds `Timeslot` (timeslots.py lines 159-198): an interval bound to a channel. -/
structure Timeslot where
  interval : Interval
  channel : Chan
  deriving DecidableEq, Repr

/-- The `_table` of a `TimeslotCollection`: channel to list of timeslots, in
dict insertion order. -/
structure TimeslotCollection where
  table : List (Chan × List Timeslot)
  deriving DecidableEq, Repr

/-- Embeds `TimeslotCollection.channels` (timeslots.py lines 225-228): the keys whose
lists are non-empty (`if v` truthiness). -/
def TimeslotCollection.channels (self : TimeslotCollection) : List Chan :=
  self.table.filterMap fun kv => if kv.2 = [] then none else some kv.1

/-- Embeds `TimeslotCollection.ch_timeslots` (timeslots.py lines 313-318). -/
def TimeslotCollection.chTimeslots (self : TimeslotCollection) (channel : Chan) :
    List Timeslot :=
  (self.table.lookup channel).getD []

/-- Python `set(xs) == set(ys)` on channel lists. -/
def chanSetEqb (xs ys : List Chan) : Bool :=
  xs.all (· ∈ ys) && ys.all (· ∈ xs)

/-- Embeds `TimeslotCollection.__eq__` (timeslots.py lines 404-415), embedded exactly
as written: after the channel-set test, the loop compares
`self.ch_timeslots(channel)` against `self.ch_timeslots(channel)` — the
receiver's own list on both sides. -/
def TimeslotCollection.eq (self other : TimeslotCollection) : Bool :=
  if chanSetEqb self.channels other.channels then
    self.channels.all fun channel =>
      ! decide (self.chTimeslots channel ≠ self.chTimeslots channel)
  else false

/-! ## `schedule.py`: `ParameterizedSchedule.bind_parameters` -/

/-- An empty `Schedule(name=...)`. -/
def emptySchedule (name : Option String := none) : SchedTree :=
  .node name 0 [] [] 0

/-- A `ParameterizedSchedule`: the sorted declared parameter names, the plain
member schedules, and the parameterized callables (each a function from a
keyword assignment to a schedule; nested `ParameterizedSchedule` members are
out of scope of the claims and not modelled). -/
structure PSched where
  name : Option String
  parameters : List String
  schedules : List SchedTree
  parameterized : List (List (String × Int) → SchedTree)

/-- The `kwargs` loop of `bind_parameters` (schedule.py lines 494-504): a known
key not yet bound is added; a known key already bound raises
`"got multiple values"`; an unknown key raises `"got an unexpected keyword"`. -/
def addKwargs (parameters : List String) :
    List (String × Int) → List (String × Int) → Except PulseErr (List (String × Int))
  | named, [] => .ok named
  | named, (key, val) :: rest =>
    if key ∈ parameters then
      if (named.lookup key).isNone then
        addKwargs parameters (named ++ [(key, val)]) rest
      else .error (.multipleValues key)
    else .error (.unexpectedKeyword key)

/-- Embeds `ParameterizedSchedule.bind_parameters` (schedule.py lines 484-520):
positional arguments are `zip`ped against the sorted parameter names (extra
positional arguments are dropped by `zip`), keyword arguments are validated by
`addKwargs`, the parameterized members are evaluated on the bound subset, and
everything is folded into a fresh schedule with `|=` (union). -/
def PSched.bindParameters (self : PSched) (args : List Int)
    (kwargs : List (String × Int)) : Except PulseErr SchedTree := do
  let named := self.parameters.zip args
  let named ← addKwargs self.parameters named kwargs
  let evaluated := self.parameterized.map fun paramSched =>
    paramSched (named.filter fun kv => kv.1 ∈ self.parameters)
  let schedules := self.schedules ++ evaluated
  schedules.foldlM (fun bound sched =>
    bound.union [(0, sched)]) (emptySchedule self.name)

/-! ## `basic_scheduler.py`: `format_meas_map` -/

/-- Python `sublist.sort()` on a list of ints: stable ascending sort. -/
def pySort (l : List Nat) : List Nat := l.insertionSort (· ≤ ·)

/-- Dict assignment `qubit_mapping[q] = sublist`: overwrite or append. -/
def dictSet (m : List (Nat × List Nat)) (k : Nat) (v : List Nat) :
    List (Nat × List Nat) :=
  if m.any (·.1 = k) then m.map fun kv => if kv.1 = k then (k, v) else kv
  else m ++ [(k, v)]

/-- Embeds `format_meas_map` (basic_scheduler.py lines 187-202).  `sublist.sort()`
sorts each group of the caller's nested-list description **in place**; the
first component of the result is the state of that description after the call,
the second is the returned qubit-to-group dict. -/
def formatMeasMap (measMap : List (List Nat)) :
    List (List Nat) × List (Nat × List Nat) :=
  measMap.foldl (fun acc sublist =>
    let sorted := pySort sublist
    (acc.1 ++ [sorted], sorted.foldl (fun m q => dictSet m q sorted) acc.2))
    ([], [])

/-! ## Scheduler entry points: configuration resolution

`qiskit/scheduler/schedule.py::schedule` (lines 31-67) and
`qiskit/scheduler/basic_scheduler.py::schedule` (lines 33-68).  The embedding
captures the configuration-resolution control flow — which of the optional
`backend`, `cmd_def` and `meas_map` arguments are consulted and which error, if
any, is raised — and returns `Unit` on success (the resolved values feed the
translation, which the claims about these lines do not concern). -/

/-- The slice of a backend the resolvers consult: it can produce a command
definition (`backend.defaults()` plus `CmdDef.from_defaults`) and a
measurement map (`backend.configuration().meas_map`). -/
structure Backend where
  defaultsCmdDef : Unit
  configMeasMap : List (List Nat)

/-- Embeds `qiskit/scheduler/schedule.py::schedule`, configuration part.  Line 52
(`defaults = backend.defaults()`) runs unconditionally before any `None`
check, so a `None` backend raises `AttributeError` there, whatever else was
supplied; only afterwards do the `cmd_def`/`meas_map` checks run (lines
54-62). -/
def schedulerResolveConfig (backend : Option Backend) (cmdDef : Option Unit)
    (measMap : Option (List (List Nat))) : Except PulseErr Unit := do
  let _ ← match backend with
    | none => Except.error PulseErr.attributeError
    | some b => Except.ok b.defaultsCmdDef
  let _ ← match cmdDef with
    | some cd => Except.ok cd
    | none => match backend with
      | none => Except.error (PulseErr.missingConfig "backend or CmdDef")
      | some b => Except.ok b.defaultsCmdDef
  let _ ← match measMap with
    | some mm => Except.ok mm
    | none => match backend with
      | none => Except.error (PulseErr.missingConfig "backend or meas_map")
      | some b => Except.ok b.configMeasMap
  Except.ok ()

/-- Embeds `qiskit/scheduler/basic_scheduler.py::schedule`, configuration part (lines
55-63): each of `cmd_def` and `meas_map` falls back to the backend only when
not supplied, and a missing backend is reported by the structured
`QiskitError` check; a backend-derived `meas_map` goes through
`format_meas_map`. -/
def basicResolveConfig (backend : Option Backend) (cmdDef : Option Unit)
    (measMap : Option (List (List Nat))) : Except PulseErr Unit := do
  let _ ← match cmdDef with
    | some cd => Except.ok cd
    | none => match backend with
      | none => Except.error (PulseErr.missingConfig "backend or CmdDef")
      | some b => Except.ok b.defaultsCmdDef
  let _ ← match measMap with
    | some _ => Except.ok ()
    | none => match backend with
      | none => Except.error (PulseErr.missingConfig "backend or meas_map")
      | some b =>
        let _ := (formatMeasMap b.configMeasMap).2
        Except.ok ()
  Except.ok ()

/-! ## `scheduler/methods/basic.py`: translator and the ASAP / ALAP policies -/

/-- A circuit element: a named gate, a barrier, or a measurement marker.
(Gate parameters are opaque to the timing logic and are folded into the
catalogue lookup key.) -/
inductive COp where
  | gate (name : String)
  | barrier
  | measure
  deriving DecidableEq, Repr

/-- One `(inst, qubits, cargs)` entry of `circuit.data` (classical args are
untouched by the scheduler). -/
structure CircInstr where
  op : COp
  qubits : List Nat
  deriving DecidableEq, Repr

/-- The command catalogue contract: `cmd_def.get(name, qubits, *params)`
returning a schedule fragment, or nothing (`PulseError`) when undefined. -/
abbrev Catalogue := String → List Nat → Option SchedTree

/-- The qubit-to-measurement-group dict `schedule_config.meas_map`. -/
abbrev MeasMapD := Nat → List Nat

/-- The `schedule` field of a `CircuitPulseDef`: either the `Barrier`
instruction object itself or a schedule fragment. -/
inductive CPSched where
  | barrier
  | sched (s : SchedTree)

/-- Embeds `CircuitPulseDef` (scheduler/models): a translated fragment with the qubit
set it constrains. -/
structure CPDef where
  schedule : CPSched
  qubits : List Nat

/-- Set-union accumulation in first-insertion order (`all_qubits.update`). -/
def setUnion (acc new : List Nat) : List Nat :=
  acc ++ new.filter (· ∉ acc)

/-- First-occurrence deduplication, modelling the Python `set` of group tuples
(`measures`); a set's iteration order is arbitrary in Python, first-occurrence
order is fixed here. -/
def firstDedup : List (List Nat) → List (List Nat)
  | [] => []
  | x :: xs => x :: (firstDedup xs).filter (· ≠ x)

/-- Embeds `get_measure_schedule` (methods/basic.py lines 127-138): one fragment per
distinct measurement group intersecting the pending set, unioned together;
returns the combined fragment and the union of the groups' qubits. -/
def getMeasureSchedule (cmdDef : Catalogue) (measMap : MeasMapD)
    (measuredQubits : List Nat) : Except PulseErr CPDef := do
  let measures := firstDedup (measuredQubits.map measMap)
  let allQubits := measures.foldl setUnion []
  let sched ← measures.foldlM (fun sched qubits => do
    match cmdDef "measure" qubits with
    | none => .error (.undefinedOperation "measure" qubits)
    | some frag => sched.union [(0, frag)]) (emptySchedule none)
  .ok ⟨.sched sched, allQubits⟩

/-- Embeds `translate_gates_to_pulse_defs` (methods/basic.py lines 108-162): one pass
over `circuit.data` that flushes the pending measurement set whenever an
element touches a measured qubit, records barriers as markers, queues
measurements, and looks every other gate up in the catalogue. -/
def translateGatesToPulseDefs (cmdDef : Catalogue) (measMap : MeasMapD)
    (ops : List CircInstr) : Except PulseErr (List CPDef) := do
  let (circPulseDefs, measuredQubits) ←
    ops.foldlM (fun acc instr => do
      let (circPulseDefs, measuredQubits) := acc
      let instQubits := instr.qubits
      let (circPulseDefs, measuredQubits) ←
        if instQubits.any (· ∈ measuredQubits) then do
          let flush ← getMeasureSchedule cmdDef measMap measuredQubits
          pure (circPulseDefs ++ [flush], ([] : List Nat))
        else pure (circPulseDefs, measuredQubits)
      match instr.op with
      | .barrier =>
        pure (circPulseDefs ++ [⟨.barrier, instQubits⟩], measuredQubits)
      | .measure =>
        pure (circPulseDefs, setUnion measuredQubits instQubits)
      | .gate name =>
        match cmdDef name instQubits with
        | none => .error (.undefinedOperation name instQubits)
        | some frag =>
          pure (circPulseDefs ++ [⟨.sched frag, instQubits⟩], measuredQubits))
      (([] : List CPDef), ([] : List Nat))
  if measuredQubits ≠ [] then do
    let flush ← getMeasureSchedule cmdDef measMap measuredQubits
    pure (circPulseDefs ++ [flush])
  else
    pure circPulseDefs

/-- Embeds `max(f q for q in qubits)` (crashes on an empty generator in Python; the
translator never produces an empty qubit list). -/
def maxOver (f : Nat → Int) : List Nat → Int
  | [] => 0
  | q :: qs => qs.foldl (fun m x => max m (f x)) (f q)

/-- Embeds `as_soon_as_possible` (methods/basic.py lines 30-60), from the translated
pulse defs onward: a forward pass with `qubit_time_available` (a
`defaultdict(int)`), placing each fragment at the max availability of its
qubits via `sched |= cpd.schedule << time`. -/
def asSoonAsPossible (defs : List CPDef) : Except PulseErr SchedTree := do
  let (sched, _) ←
    defs.foldlM (fun acc cpd => do
      let (sched, qubitTimeAvailable) := acc
      let time := maxOver qubitTimeAvailable cpd.qubits
      match cpd.schedule with
      | .barrier =>
        pure (sched, fun q => if q ∈ cpd.qubits then time else qubitTimeAvailable q)
      | .sched s => do
        let shifted ← s.shiftS time
        let sched ← sched.union [(0, shifted)]
        let avail := fun q =>
          if q ∈ cpd.qubits then time + s.duration else qubitTimeAvailable q
        pure (sched, avail))
      (emptySchedule none, (fun _ => 0 : Nat → Int))
  pure sched

/-- The `qubit_available_until` dict of `as_late_as_possible`: the tracked
keys with their (finite) values, in insertion order; an absent key reads as
`float("inf")`. -/
abbrev AvailUntil := List (Nat × Int)

/-- The ALAP `update_times` (methods/basic.py lines 81-87): it iterates over
the **already tracked** keys only, zeroing the instruction's qubits and adding
the shift to every other tracked qubit; an untracked qubit is not touched. -/
def alapUpdateTracked (entries : AvailUntil) (instQubits : List Nat)
    (shift : Int) : AvailUntil :=
  entries.map fun qv => if qv.1 ∈ instQubits then (qv.1, 0) else (qv.1, qv.2 + shift)

/-- Embeds `as_late_as_possible` (methods/basic.py lines 63-105), from the translated
pulse defs onward: a reverse pass.  For a fragment, reading
`qubit_available_until[q]` materializes each of its qubits (with `inf`, i.e.
untracked reads), `min(...) - duration` is the candidate start (`0` when the
minimum is infinite, i.e. no qubit is tracked), a negative candidate becomes a
global shift of everything scheduled so far, and `update_times` zeroes the
fragment's qubits (all now tracked) while adding the shift to the other
tracked ones.  For a barrier, `update_times` alone runs — only qubits already
tracked are pinned to `0`. -/
def asLateAsPossible (defs : List CPDef) : Except PulseErr SchedTree := do
  let (sched, _) ←
    defs.reverse.foldlM
      (fun acc cpd => do
        let (sched, qubitAvailableUntil) := acc
        match cpd.schedule with
        | .barrier =>
          pure (sched, alapUpdateTracked qubitAvailableUntil cpd.qubits 0)
        | .sched cmdSched => do
          let finiteVals := cpd.qubits.filterMap (qubitAvailableUntil.lookup ·)
          let (cmdStartTime, shiftAmount) :=
            match finiteVals with
            | [] => ((0 : Int), (0 : Int))
            | v :: vs =>
              let cmdStart := vs.foldl min v - cmdSched.duration
              (max cmdStart 0, max 0 (-cmdStart))
          let shiftedSched ← sched.shiftS shiftAmount
          let shiftedCmd ← cmdSched.shiftS cmdStartTime
          let sched ← shiftedSched.union [(0, shiftedCmd)]
          let tracked := alapUpdateTracked qubitAvailableUntil cpd.qubits shiftAmount
          let fresh := cpd.qubits.filter fun q =>
            (qubitAvailableUntil.lookup q).isNone
          pure (sched, tracked ++ fresh.map fun q => (q, (0 : Int))))
      (emptySchedule none, ([] : AvailUntil))
  pure sched

/-! ## Observation helpers and concrete fixtures -/

/-- The error of a failed computation, if any. -/
def errOf {α : Type} : Except PulseErr α → Option PulseErr
  | .error e => some e
  | .ok _ => none

/-- The instruction sequence of a successfully built schedule — what a caller
reads back (`Schedule.instructions`). -/
def instrsOf : Except PulseErr SchedTree → Option (List (Int × Inst))
  | .ok s => some s.instructions
  | .error _ => none

/-- The timeslot table of a successfully built schedule. -/
def tableOf : Except PulseErr SchedTree → Option Table
  | .ok s => some s.timeslots
  | .error _ => none

/-- The absolute start time of the first instruction with the given name in a
successfully built schedule. -/
def startOfInst (e : Except PulseErr SchedTree) (nm : String) : Option Int :=
  match e with
  | .ok s => (s.instructions.find? fun ti => ti.2.name = nm).map Prod.fst
  | .error _ => none

/-- The property claimed for every per-channel interval list: pairwise
non-overlapping and sorted in ascending order of start time. -/
def sortedNonOverlapping (ivs : List Iv) : Bool :=
  decide (ivs.Pairwise fun a b => overlapsT a b = false ∧ a.1 ≤ b.1)

/-- Drive / control / measure / acquire channels of the fixtures. -/
def d0 : Chan := ⟨.drive, 0⟩
/-- Drive channel 1. -/
def d1 : Chan := ⟨.drive, 1⟩
/-- Control channel 0. -/
def u0 : Chan := ⟨.control, 0⟩
/-- Measure channel 0. -/
def m0 : Chan := ⟨.measure, 0⟩
/-- Measure channel 1. -/
def m1 : Chan := ⟨.measure, 1⟩
/-- Acquire channel 0. -/
def a0 : Chan := ⟨.acquire, 0⟩
/-- Acquire channel 1. -/
def a1 : Chan := ⟨.acquire, 1⟩

/-- A catalogue fragment as `CmdDef.get` returns it: a one-child `Schedule`
wrapping the instruction (the value `Schedule((0, inst))` produces). -/
def fragOf (i : Inst) : SchedTree :=
  .node none i.duration i.table [(0, .leaf i)] i.buffer

/-- C1 fixture: a 5-step instruction on `d0`. -/
def leafA : Inst := ⟨"instA", 5, [d0], 0⟩
/-- C1 fixture: a 10-step instruction on `d0` (placed at 10, occupying
`[10, 20)`). -/
def leafB : Inst := ⟨"instB", 10, [d0], 0⟩
/-- C1 fixture: a 7-step instruction on `d0` (inserted at 5, occupying
`[5, 12)`). -/
def fragC : Inst := ⟨"instC", 7, [d0], 0⟩

/-- C3 fixture: the receiver's instruction, scheduled at 5 on `d0`
(occupying `[5, 15)`). -/
def leaf515 : Inst := ⟨"orig", 10, [d0], 0⟩
/-- C3 fixture: the conflicting fragment, interval `[0, 10)` on `d0`. -/
def frag010 : Inst := ⟨"newfrag", 10, [d0], 0⟩

/-- C4 fixture: receiver instruction on `d0` with buffer 2. -/
def bufRecvLeaf : Inst := ⟨"recv", 10, [d0], 2⟩
/-- C4 fixture: appended fragment on `d0` with buffer 1. -/
def bufFrag : Inst := ⟨"frag", 5, [d0], 1⟩

/-- C5 fixture: a 10-step gate on qubit 0. -/
def gA : Inst := ⟨"gA", 10, [d0], 0⟩
/-- C5 fixture: a 1-step gate on qubit 1 before the barrier. -/
def gB : Inst := ⟨"gB", 1, [d1], 0⟩
/-- C5 fixture: a 1-step gate on qubit 1 after the barrier. -/
def gC : Inst := ⟨"gC", 1, [d1], 0⟩
/-- C5 fixture catalogue. -/
def ce5Cat : Catalogue := fun name qubits =>
  match name, qubits with
  | "gA", [0] => some (fragOf gA)
  | "gB", [1] => some (fragOf gB)
  | "gC", [1] => some (fragOf gC)
  | _, _ => none
/-- C5 fixture circuit: `[gA(q0), gB(q1), barrier(q0, q1), gC(q1)]`. -/
def ce5Circ : List CircInstr :=
  [⟨.gate "gA", [0]⟩, ⟨.gate "gB", [1]⟩, ⟨.barrier, [0, 1]⟩, ⟨.gate "gC", [1]⟩]
/-- C5 fixture measurement grouping (each qubit its own group; unused — the
circuit has no measurements). -/
def ce5MM : MeasMapD := fun q => [q]

/-- C6 fixture: `u2` fragment on qubit 0, duration 28 (the reference
single-qubit gate duration). -/
def u2q0 : Inst := ⟨"u2q0", 28, [d0], 0⟩
/-- C6 fixture: `u2` fragment on qubit 1, duration 28. -/
def u2q1 : Inst := ⟨"u2q1", 28, [d1], 0⟩
/-- C6 fixture: the `cx(q0, q1)` fragment, reference duration 22. -/
def cxI : Inst := ⟨"cx01", 22, [d0, d1, u0], 0⟩
/-- C6 fixture: the combined measurement fragment for qubits 0 and 1,
reference duration 10. -/
def measI : Inst := ⟨"meas01", 10, [m0, m1, a0, a1], 0⟩
/-- C6 reference catalogue (gate durations of the reference 2-qubit device:
u2 = 28, cx = 22, measure = 10). -/
def refCat : Catalogue := fun name qubits =>
  match name, qubits with
  | "u2", [0] => some (fragOf u2q0)
  | "u2", [1] => some (fragOf u2q1)
  | "cx", [0, 1] => some (fragOf cxI)
  | "measure", [0, 1] => some (fragOf measI)
  | _, _ => none
/-- C6 reference measurement grouping: qubits 0 and 1 measured together. -/
def refMM : MeasMapD := fun _ => [0, 1]
/-- C6 reference circuit:
`[u2(q0), u2(q1), barrier(q1), u2(q1), barrier(q0, q1), cx(q0, q1), measure(q0), measure(q1)]`. -/
def refCirc : List CircInstr :=
  [⟨.gate "u2", [0]⟩, ⟨.gate "u2", [1]⟩, ⟨.barrier, [1]⟩, ⟨.gate "u2", [1]⟩,
   ⟨.barrier, [0, 1]⟩, ⟨.gate "cx", [0, 1]⟩, ⟨.measure, [0]⟩, ⟨.measure, [1]⟩]

/-- C8 fixture: a parameterized fragment declaring one parameter `"amp"` and
holding one (empty) member schedule and no parameterized callables. -/
def c8PS : PSched := ⟨none, ["amp"], [emptySchedule none], []⟩

/-- Embeds "Fails with `ParameterMismatch`": the result is one of the two
`PulseError`s raised by the binding validation of `bind_parameters`. -/
def isParamMismatch {α : Type} (e : Except PulseErr α) : Prop :=
  (∃ k, e = .error (.unexpectedKeyword k)) ∨ (∃ k, e = .error (.multipleValues k))

/-- Fact: `==` on channels is propositional-equality decision (the `BEq` instance
derived from `DecidableEq`); used to evaluate table lookups. -/
theorem beq_chan_eq_decide (a b : Chan) : (a == b) = decide (a = b) := rfl

/-! ## Error classification of the composition pipeline

Every failure produced by `_add_timeslots`/`union` along the schedule-building
path is the timeslot-overlap `PulseError`; `bind_parameters` raises its two
parameter-mismatch errors only from the keyword-validation loop.  These lemmas
separate the two families for the C8 characterization. -/

/-- A failing bind comes from a failing first stage or a failing continuation. -/
theorem bind_error_cases {α β : Type} (x : Except PulseErr α)
    (f : α → Except PulseErr β) (e : PulseErr) (h : x >>= f = .error e) :
    x = .error e ∨ ∃ a, x = .ok a ∧ f a = .error e := by
  cases x <;> simp_all [Bind.bind, Except.bind]

/-- Fact: `_insertion_index` only ever fails with the overlap error. -/
theorem insertionIndexGo_error_overlap :
    ∀ (fuel : Nat) (l : List Iv) (i : Iv) (idx : Nat) (e : PulseErr),
      insertionIndexGo fuel l i idx = .error e → e = .overlap := by
  intro fuel
  induction fuel with
  | zero =>
    intro l i idx e h
    match l with
    | [] => simp [insertionIndexGo] at h
    | [only] =>
      simp only [insertionIndexGo] at h
      split at h <;> simp_all
    | a :: b :: rest => simp [insertionIndexGo] at h
  | succ fuel ih =>
    intro l i idx e h
    match l with
    | [] => simp [insertionIndexGo] at h
    | [only] =>
      simp only [insertionIndexGo] at h
      split at h <;> simp_all
    | a :: b :: rest =>
      simp only [insertionIndexGo] at h
      split at h
      · exact ih _ _ _ _ h
      · exact ih _ _ _ _ h

/-- The per-channel merge loop only ever fails with the overlap error. -/
theorem mergeChannelIntervals_error_overlap :
    ∀ (incoming existing : List Iv) (e : PulseErr),
      mergeChannelIntervals existing incoming = .error e → e = .overlap := by
  intro incoming
  induction incoming with
  | nil => intro existing e h; simp [mergeChannelIntervals] at h
  | cons i rest ih =>
    intro existing e h
    simp only [mergeChannelIntervals] at h
    split at h
    · simp at h
    · split at h
      · simp at h
      · rcases bind_error_cases _ _ _ h with hidx | ⟨idx, _, hrest⟩
        · exact insertionIndexGo_error_overlap _ _ _ _ _ hidx
        · exact ih _ _ hrest

/-- Lifting a per-step error classification through `List.foldlM`. -/
theorem foldlM_error_overlap {α β : Type} (f : β → α → Except PulseErr β)
    (hf : ∀ b a e, f b a = .error e → e = .overlap) :
    ∀ (l : List α) (init : β) (e : PulseErr),
      l.foldlM f init = .error e → e = .overlap := by
  intro l
  induction l with
  | nil => intro init e h; simp [Pure.pure, Except.pure] at h
  | cons a l ih =>
    intro init e h
    rw [List.foldlM_cons] at h
    rcases bind_error_cases _ _ _ h with hfa | ⟨b, _, hrest⟩
    · exact hf init a e hfa
    · exact ih b e hrest

/-- Fact: `_add_timeslots` only ever fails with the overlap error. -/
theorem addTimeslots_error_overlap (st : BuildState) (time : Int)
    (sched : SchedTree) (e : PulseErr) (h : addTimeslots st time sched = .error e) :
    e = .overlap := by
  unfold addTimeslots at h
  rcases bind_error_cases _ _ _ h with hfold | ⟨ts, _, hpure⟩
  · refine foldlM_error_overlap _ ?_ _ _ _ hfold
    intro b a e' hb
    obtain ⟨channel, ivs⟩ := a
    dsimp only at hb
    split at hb
    · simp [Pure.pure, Except.pure] at hb
    · rcases bind_error_cases _ _ _ hb with hmerge | ⟨merged, _, hp⟩
      · exact mergeChannelIntervals_error_overlap _ _ _ hmerge
      · simp [Pure.pure, Except.pure] at hp
  · simp [Pure.pure, Except.pure] at hpure

/-- Fact: `_union` only ever fails with the overlap error. -/
theorem unionInto_error_overlap (st : BuildState) (other : Int × SchedTree)
    (e : PulseErr) (h : unionInto st other = .error e) : e = .overlap := by
  obtain ⟨shiftTime, sched⟩ := other
  unfold unionInto at h
  dsimp only at h
  rcases bind_error_cases _ _ _ h with hadd | ⟨st', _, hrest⟩
  · exact addTimeslots_error_overlap _ _ _ _ hadd
  · cases sched <;> simp [Pure.pure, Except.pure] at hrest

/-- Fact: `Schedule.union` only ever fails with the overlap error. -/
theorem union_error_overlap (self : SchedTree)
    (schedules : List (Int × SchedTree)) (name : Option String) (e : PulseErr)
    (h : self.union schedules name = .error e) : e = .overlap := by
  unfold SchedTree.union at h
  rcases bind_error_cases _ _ _ h with h1 | ⟨st, _, h2⟩
  · exact unionInto_error_overlap _ _ _ h1
  · rcases bind_error_cases _ _ _ h2 with h3 | ⟨st2, _, h4⟩
    · exact foldlM_error_overlap _ (fun b a e' hb => unionInto_error_overlap b a e' hb)
        _ _ _ h3
    · simp [Pure.pure, Except.pure] at h4

/-- The keyword-validation loop fails only with one of the two
parameter-mismatch errors. -/
theorem addKwargs_error_kinds (params : List String) :
    ∀ (kwargs named : List (String × Int)) (e : PulseErr),
      addKwargs params named kwargs = .error e →
      (∃ k, e = .unexpectedKeyword k) ∨ ∃ k, e = .multipleValues k := by
  intro kwargs
  induction kwargs with
  | nil => intro named e h; simp [addKwargs] at h
  | cons kv rest ih =>
    intro named e h
    obtain ⟨key, val⟩ := kv
    simp only [addKwargs] at h
    split at h
    · split at h
      · exact ih _ _ h
      · simp only [Except.error.injEq] at h
        exact Or.inr ⟨key, h.symm⟩
    · simp only [Except.error.injEq] at h
      exact Or.inl ⟨key, h.symm⟩

/-- Appending a fresh binding does not change lookups of other keys. -/
theorem lookup_append_singleton (l : List (String × Int)) (k k' : String)
    (v : Int) (hne : k' ≠ k) : (l ++ [(k, v)]).lookup k' = l.lookup k' := by
  induction l with
  | nil => simp [List.lookup, beq_eq_false_iff_ne.mpr hne]
  | cons x xs ih =>
    obtain ⟨kx, vx⟩ := x
    simp only [List.cons_append, List.lookup]
    cases hx : k' == kx <;> simp [ih]

/-- The keyword-validation loop succeeds exactly when every keyword argument
names a declared parameter that the running assignment has not bound yet. -/
theorem addKwargs_ok_iff (params : List String) :
    ∀ (kwargs named : List (String × Int)), (kwargs.map Prod.fst).Nodup →
      ((∃ r, addKwargs params named kwargs = .ok r) ↔
        ∀ kv ∈ kwargs, kv.1 ∈ params ∧ named.lookup kv.1 = none) := by
  intro kwargs
  induction kwargs with
  | nil => intro named _; simp [addKwargs]
  | cons kv rest ih =>
    intro named hnd
    obtain ⟨key, val⟩ := kv
    simp only [List.map_cons, List.nodup_cons, List.mem_map] at hnd
    obtain ⟨hkey, hrest⟩ := hnd
    simp only [addKwargs]
    split_ifs with h1 h2
    · rw [ih (named ++ [(key, val)]) hrest]
      constructor
      · intro h kv' hkv'
        rcases List.mem_cons.mp hkv' with rfl | hmem
        · exact ⟨h1, Option.isNone_iff_eq_none.mp h2⟩
        · have hne : kv'.1 ≠ key := fun heq => hkey ⟨kv', hmem, heq⟩
          have := h kv' hmem
          rwa [lookup_append_singleton _ _ _ _ hne] at this
      · intro h kv' hmem
        have hne : kv'.1 ≠ key := fun heq => hkey ⟨kv', hmem, heq⟩
        have := h kv' (List.mem_cons_of_mem _ hmem)
        rwa [lookup_append_singleton _ _ _ _ hne]
    · constructor
      · rintro ⟨r, hr⟩; cases hr
      · intro h
        have hh := (h (key, val) (List.mem_cons_self _ _)).2
        simp [hh] at h2
    · constructor
      · rintro ⟨r, hr⟩; cases hr
      · intro h
        exact absurd (h (key, val) (List.mem_cons_self _ _)).1 h1

/-! ## Theorems -/

/-- C1.  The no-overlap invariant fails on the code: building the schedule
`{d0 : [0,5), [10,20)}` and inserting a fragment occupying `[5,12)` on `d0`
at time 5 *succeeds* (the binary-search `_insertion_index` only tests the
neighbour on one side, here `[0,5)`, and misses the conflict with `[10,20)`),
recording the overlapping interval list `[(0,5), (5,12), (10,20)]` — which
violates the claimed pairwise-non-overlap property, and `_overlaps` itself
confirms the conflict between `[5,12)` and `[10,20)`. -/
theorem c1_insert_misses_overlap :
    tableOf ((mkSchedule [(0, .leaf leafA), (10, .leaf leafB)]).bind
        fun s => s.insert 5 (.leaf fragC))
      = some [(d0, [(0, 5), (5, 12), (10, 20)])]
    ∧ sortedNonOverlapping [(0, 5), (5, 12), (10, 20)] = false
    ∧ overlapsT (5, 12) (10, 20) = true := by
  decide

/-- C2, counterexample.  The claim that a zero-duration interval never
overlaps anything is false: the zero-duration interval `[5,5)` lies strictly
inside `[0,10)` and both overlap tests report an overlap (consistently with
the strict formula `begin_a < end_b ∧ begin_b < end_a`). -/
theorem c2_zero_duration_overlaps :
    Interval.hasOverlap ⟨5, 5⟩ ⟨0, 10⟩ = true ∧ overlapsT (5, 5) (0, 10) = true := by
  decide

/-- C2, amended.  Both overlap tests implement exactly the strict formula
`begin_a < end_b ∧ begin_b < end_a` on valid intervals; consequently a
zero-duration interval overlaps `b` precisely when its point lies strictly
inside `b` — at or outside `b`'s endpoints it does not overlap. -/
theorem c2_overlap_characterization (a b : Interval)
    (ha : 0 ≤ a.begin' ∧ a.begin' ≤ a.end') (hb : 0 ≤ b.begin' ∧ b.begin' ≤ b.end') :
    (a.hasOverlap b = true ↔ a.begin' < b.end' ∧ b.begin' < a.end')
    ∧ (overlapsT (a.begin', a.end') (b.begin', b.end') = true ↔ a.hasOverlap b = true)
    ∧ (a.begin' = a.end' →
        (a.hasOverlap b = true ↔ b.begin' < a.begin' ∧ a.begin' < b.end')) := by
  obtain ⟨ha0, ha1⟩ := ha
  obtain ⟨hb0, hb1⟩ := hb
  rcases a with ⟨a1, a2⟩
  rcases b with ⟨b1, b2⟩
  simp only [Interval.hasOverlap, overlapsT] at *
  dsimp only at *
  refine ⟨by split_ifs with h <;> simp [h], ?_, ?_⟩
  · split_ifs with h1 h2 <;> simp_all <;> omega
  · intro he
    split_ifs with h <;> simp [h] <;> omega

/-- Witness for `c2_overlap_characterization` at `a = [5,5)`, `b = [0,10)`. -/
theorem c2_overlap_characterization_witness :
    ((Interval.mk 5 5).hasOverlap ⟨0, 10⟩ = true ↔ (5 : Int) < 10 ∧ (0 : Int) < 5)
    ∧ (overlapsT (5, 5) (0, 10) = true ↔ (Interval.mk 5 5).hasOverlap ⟨0, 10⟩ = true)
    ∧ ((5 : Int) = 5 →
        ((Interval.mk 5 5).hasOverlap ⟨0, 10⟩ = true ↔ (0 : Int) < 5 ∧ (5 : Int) < 10)) :=
  c2_overlap_characterization ⟨5, 5⟩ ⟨0, 10⟩ (by norm_num) (by norm_num)

/-- C3.  The §8 conflict scenario: inserting a fragment occupying `[0,10)` on
`d0` into a schedule holding `[5,15)` on `d0` fails with the overlap error,
and the receiver — which the composition operators only read, every write
going to the freshly built schedule — still yields exactly its original
instruction sequence. -/
theorem c3_failed_insert_receiver_unchanged :
    errOf ((mkSchedule [(5, .leaf leaf515)]).bind
        fun s => s.insert 0 (.leaf frag010))
      = some .overlap
    ∧ instrsOf (mkSchedule [(5, .leaf leaf515)]) = some [(5, leaf515)] := by
  decide

set_option maxHeartbeats 1000000 in
/-- C4, counterexample.  `append` does not equal `insert` at the shared-channel
stop time when buffers are non-zero: with a receiver of buffer 2 occupying
`[0,10)` on `d0` and a fragment of buffer 1, the shared stop time is 10, yet
`append` (which calls `insert` with `buffer=True`) places the fragment at
`10 + 2 = 12` while `insert(10, fragment)` places it at 10. -/
theorem c4_append_buffer_differs_from_insert :
    (match mkSchedule [(0, .leaf bufRecvLeaf)] with
      | .ok s => some (s.chStopTime (s.channels.filter
          (· ∈ (SchedTree.leaf bufFrag).channels)))
      | .error _ => none) = some 10
    ∧ instrsOf ((mkSchedule [(0, .leaf bufRecvLeaf)]).bind
        fun s => s.append (.leaf bufFrag))
      = some [(0, bufRecvLeaf), (12, bufFrag)]
    ∧ instrsOf ((mkSchedule [(0, .leaf bufRecvLeaf)]).bind
        fun s => s.insert 10 (.leaf bufFrag))
      = some [(0, bufRecvLeaf), (10, bufFrag)] := by
  refine ⟨?_, ?_, ?_⟩ <;>
    simp [instrsOf, mkSchedule, SchedTree.insert, SchedTree.append, SchedTree.union,
      unionInto, addTimeslots, mergeChannelIntervals, insertionIndex, insertionIndexGo,
      overlapsT, Table.setCh, Inst.table, SchedTree.timeslots, SchedTree.duration,
      SchedTree.buffer, SchedTree.channels, SchedTree.chStopTime, BuildState.toTree,
      SchedTree.instructions, SchedTree.rawInstructions,
      SchedTree.rawInstructions.rawInstructionsList, stableSortInsts, stableInsert,
      instKeyLt, instKey, bufRecvLeaf, bufFrag, d0, emptySchedule,
      Bind.bind, Pure.pure, Functor.map, Except.instMonad, Except.bind, Except.map,
      Except.pure]

/-- C4, amended.  `append(F)` on `S` places `F` at the shared-channel stop
time `t` and equals `insert(t, F)` whenever the buffer adjustment is inert:
when the fragment's buffer is 0, or the receiver's buffer is 0, or `t ≤ 0`.
(In general `append` delegates to `insert` with `buffer=True`, which adds the
receiver's buffer to a positive start time of a buffered fragment.) -/
theorem c4_append_eq_insert_of_buffer_inert (s f : SchedTree)
    (h : f.buffer = 0 ∨ s.buffer = 0 ∨
      s.chStopTime (s.channels.filter (· ∈ f.channels)) ≤ 0) :
    s.append f = s.insert (s.chStopTime (s.channels.filter (· ∈ f.channels))) f := by
  unfold SchedTree.append SchedTree.insert
  dsimp only
  simp only [Bool.false_eq_true, false_and, if_false]
  rcases h with h | h | h <;> split_ifs with hc <;>
    first
      | rfl
      | exact absurd h hc.2.1
      | rw [h, add_zero]
      | exact absurd hc.2.2 (by omega)

/-- Witness for `c4_append_eq_insert_of_buffer_inert` at a buffer-0 fragment. -/
theorem c4_append_eq_insert_witness :
    (emptySchedule none).append (.leaf leafA)
      = (emptySchedule none).insert
          ((emptySchedule none).chStopTime
            ((emptySchedule none).channels.filter
              (· ∈ (SchedTree.leaf leafA).channels)))
          (.leaf leafA) :=
  c4_append_eq_insert_of_buffer_inert (emptySchedule none) (.leaf leafA) (Or.inl rfl)

set_option maxHeartbeats 1000000 in
/-- C5.  ASAP monotonicity fails on the code: for the circuit
`[gA(q0) dur 10, gB(q1) dur 1, barrier(q0, q1), gC(q1) dur 1]` both policies
succeed, but `gC` starts at 10 under ASAP and at 1 under ALAP.  The ALAP
`update_times` only iterates over already-tracked qubits, so the barrier fails
to pin qubit 0 (no later operation touches it) and the `gA`-before-`gC`
ordering imposed by the barrier is lost in the ALAP result. -/
theorem c5_asap_exceeds_alap :
    startOfInst ((translateGatesToPulseDefs ce5Cat ce5MM ce5Circ).bind
        asSoonAsPossible) "gC" = some 10
    ∧ startOfInst ((translateGatesToPulseDefs ce5Cat ce5MM ce5Circ).bind
        asLateAsPossible) "gC" = some 1
    ∧ ¬ ((10 : Int) ≤ 1) := by
  refine ⟨?_, ?_, by omega⟩ <;>
    simp [startOfInst, translateGatesToPulseDefs, getMeasureSchedule, firstDedup,
      setUnion, maxOver, asSoonAsPossible, asLateAsPossible, alapUpdateTracked,
      ce5Cat, ce5Circ, ce5MM, gA, gB, gC, fragOf, emptySchedule, d0, d1,
      mkSchedule, SchedTree.insert, SchedTree.union, SchedTree.shiftS, unionInto,
      addTimeslots, mergeChannelIntervals, insertionIndex, insertionIndexGo,
      overlapsT, Table.setCh, Inst.table, SchedTree.timeslots, SchedTree.duration,
      SchedTree.buffer, SchedTree.channels, BuildState.toTree,
      SchedTree.instructions, SchedTree.rawInstructions,
      SchedTree.rawInstructions.rawInstructionsList, stableSortInsts, stableInsert,
      instKeyLt, instKey, List.lookup, beq_chan_eq_decide, Chan.mk.injEq,
      Bind.bind, Pure.pure, Functor.map, Except.instMonad, Except.bind, Except.map,
      Except.pure]

set_option maxHeartbeats 2000000 in
/-- C6.  The §8 reference scenario, with the reference durations (u2 = 28,
cx = 22, measure = 10): under ASAP both initial `u2` fragments start at 0, the
second `u2` on q1 at 28, `cx` at 56 and the combined measurement at 78; under
ALAP the first `u2` on q0 starts at 28 while `cx` and the measurement keep 56
and 78. -/
theorem c6_reference_circuit_timings :
    instrsOf ((translateGatesToPulseDefs refCat refMM refCirc).bind
        asSoonAsPossible)
      = some [(0, u2q0), (0, u2q1), (28, u2q1), (56, cxI), (78, measI)]
    ∧ instrsOf ((translateGatesToPulseDefs refCat refMM refCirc).bind
        asLateAsPossible)
      = some [(0, u2q1), (28, u2q0), (28, u2q1), (56, cxI), (78, measI)] := by
  constructor <;>
    simp [instrsOf, translateGatesToPulseDefs, getMeasureSchedule, firstDedup,
      setUnion, maxOver, asSoonAsPossible, asLateAsPossible, alapUpdateTracked,
      refCat, refCirc, refMM, u2q0, u2q1, cxI, measI, fragOf, emptySchedule,
      d0, d1, u0, m0, m1, a0, a1,
      mkSchedule, SchedTree.insert, SchedTree.union, SchedTree.shiftS, unionInto,
      addTimeslots, mergeChannelIntervals, insertionIndex, insertionIndexGo,
      overlapsT, Table.setCh, Inst.table, SchedTree.timeslots, SchedTree.duration,
      SchedTree.buffer, SchedTree.channels, BuildState.toTree,
      SchedTree.instructions, SchedTree.rawInstructions,
      SchedTree.rawInstructions.rawInstructionsList, stableSortInsts, stableInsert,
      instKeyLt, instKey, List.lookup, beq_chan_eq_decide, Chan.mk.injEq,
      Bind.bind, Pure.pure, Functor.map, Except.instMonad, Except.bind, Except.map,
      Except.pure]

/-- C7.  `qiskit/scheduler/schedule.py::schedule` dereferences
`backend.defaults()` before any check (line 52), so with no backend it raises
`AttributeError` even when an explicit catalogue and measurement map are
supplied — and also when nothing is supplied, where the claim (and the
docstring) promise the structured missing-configuration error.  The
`basic_scheduler.py` entry point behaves as claimed. -/
theorem c7_entry_point_resolution :
    schedulerResolveConfig none (some ()) (some [[0, 1]])
      = .error .attributeError
    ∧ basicResolveConfig none (some ()) (some [[0, 1]]) = .ok ()
    ∧ schedulerResolveConfig none none none = .error .attributeError
    ∧ basicResolveConfig none none none
      = .error (.missingConfig "backend or CmdDef") := by
  exact ⟨rfl, rfl, rfl, rfl⟩

/-- C8, counterexample.  Binding with an arity mismatch does not fail: the
fragment declares one parameter but receives two positional arguments, and
`bind_parameters` returns a schedule (`zip` silently drops the extra
argument). -/
theorem c8_arity_mismatch_succeeds :
    c8PS.parameters.length = 1
    ∧ instrsOf (c8PS.bindParameters [1, 2] []) = some [] := by
  constructor
  · rfl
  · rfl

/-- C8, amended.  `bind_parameters` fails with a `ParameterMismatch` error
exactly when some supplied keyword argument names an unknown parameter or
rebinds a parameter already bound positionally (`zip` of the sorted parameter
names against the positional arguments); arity mismatches are not detected —
extra positional arguments are silently dropped — and any later failure while
unioning the member schedules is an overlap error, not a parameter
mismatch. -/
theorem c8_param_mismatch_iff (ps : PSched) (args : List Int)
    (kwargs : List (String × Int)) (hnd : (kwargs.map Prod.fst).Nodup) :
    isParamMismatch (ps.bindParameters args kwargs) ↔
      ∃ kv ∈ kwargs, kv.1 ∉ ps.parameters ∨
        (ps.parameters.zip args).lookup kv.1 ≠ none := by
  unfold PSched.bindParameters
  dsimp only
  cases hk : addKwargs ps.parameters (ps.parameters.zip args) kwargs with
  | error e =>
    have hkinds := addKwargs_error_kinds _ _ _ _ hk
    constructor
    · intro _
      have hno : ¬ ∃ r,
          addKwargs ps.parameters (ps.parameters.zip args) kwargs = .ok r := by
        rw [hk]; rintro ⟨r, hr⟩; cases hr
      rw [addKwargs_ok_iff _ _ _ hnd] at hno
      push_neg at hno
      obtain ⟨kv, hkv, hbad⟩ := hno
      exact ⟨kv, hkv, by tauto⟩
    · intro _
      show isParamMismatch (Except.error e >>= _)
      have hred : (Except.error e >>= fun (named : List (String × Int)) =>
          (ps.schedules ++ ps.parameterized.map fun paramSched =>
            paramSched (named.filter fun kv => kv.1 ∈ ps.parameters)).foldlM
            (fun bound sched => bound.union [(0, sched)])
            (emptySchedule ps.name)) = (Except.error e : Except PulseErr SchedTree) := rfl
      rw [hred]
      rcases hkinds with ⟨k, rfl⟩ | ⟨k, rfl⟩
      · exact Or.inl ⟨k, rfl⟩
      · exact Or.inr ⟨k, rfl⟩
  | ok named =>
    have hall := (addKwargs_ok_iff _ _ _ hnd).mp ⟨named, hk⟩
    constructor
    · intro hpm
      exfalso
      have hofold : ∀ (e' : PulseErr),
          ((Except.ok named : Except PulseErr (List (String × Int))) >>=
            fun (named : List (String × Int)) =>
            (ps.schedules ++ ps.parameterized.map fun paramSched =>
              paramSched (named.filter fun kv => kv.1 ∈ ps.parameters)).foldlM
              (fun bound sched => bound.union [(0, sched)])
              (emptySchedule ps.name)) = .error e' → e' = .overlap := by
        intro e' he'
        rcases bind_error_cases _ _ _ he' with hx | ⟨a, _, hfold⟩
        · cases hx
        · exact foldlM_error_overlap _
            (fun b a e'' hb => union_error_overlap b [(0, a)] none e'' hb) _ _ _ hfold
      rcases hpm with ⟨k, hkk⟩ | ⟨k, hkk⟩
      · exact absurd (hofold _ hkk) (by simp)
      · exact absurd (hofold _ hkk) (by simp)
    · rintro ⟨kv, hkv, hbad⟩
      exfalso
      have := hall kv hkv
      tauto

/-- Witness for `c8_param_mismatch_iff`: an unknown keyword `"phase"` supplied
to a fragment declaring only `"amp"`. -/
theorem c8_param_mismatch_iff_witness :
    isParamMismatch (c8PS.bindParameters [1] [("phase", 5)]) ↔
      ∃ kv ∈ [(("phase" : String), (5 : Int))], kv.1 ∉ c8PS.parameters ∨
        (c8PS.parameters.zip [(1 : Int)]).lookup kv.1 ≠ none :=
  c8_param_mismatch_iff c8PS [1] [("phase", 5)] (by simp)

/-- C9, counterexample.  The group-map description is not left element-for-
element identical: `format_meas_map` sorts each group in place, so the
description `[[1, 0]]` reads back as `[[0, 1]]` after the call. -/
theorem c9_meas_map_mutated :
    (formatMeasMap [[1, 0]]).1 = [[0, 1]] ∧ (formatMeasMap [[1, 0]]).1 ≠ [[1, 0]] := by
  decide

/-- The description component of the `format_meas_map` fold, for any
accumulator: each sublist is replaced by its sorted copy, in order. -/
theorem formatMeasMap_foldl_fst (mm : List (List Nat)) :
    ∀ acc : List (List Nat) × List (Nat × List Nat),
      (mm.foldl (fun acc sublist =>
          let sorted := pySort sublist
          (acc.1 ++ [sorted],
            sorted.foldl (fun m q => dictSet m q sorted) acc.2)) acc).1
        = acc.1 ++ mm.map pySort := by
  induction mm with
  | nil => intro acc; simp
  | cons x xs ih => intro acc; simp [ih]

/-- Fact: `map f l = l` exactly when `f` fixes every element of `l`. -/
theorem list_map_eq_self {α : Type} (f : α → α) :
    ∀ l : List α, l.map f = l ↔ ∀ x ∈ l, f x = x := by
  intro l
  induction l with
  | nil => simp
  | cons x xs ih => simp [ih]

/-- C9, amended.  `format_meas_map` leaves the catalogue untouched (it never
sees it) but sorts each group of the supplied description in place: afterwards
the description equals the original with every group replaced by its ascending
sort — a permutation of the group — and it is element-for-element identical to
what the caller supplied exactly when every group was already sorted. -/
theorem c9_meas_map_sorted_in_place (mm : List (List Nat)) :
    (formatMeasMap mm).1 = mm.map pySort
    ∧ (∀ l ∈ mm, (pySort l).Perm l ∧ (pySort l).Sorted (· ≤ ·))
    ∧ ((formatMeasMap mm).1 = mm ↔ ∀ l ∈ mm, l.Sorted (· ≤ ·)) := by
  have hfst : (formatMeasMap mm).1 = mm.map pySort :=
    formatMeasMap_foldl_fst mm ([], [])
  refine ⟨hfst, ?_, ?_⟩
  · intro l _
    exact ⟨List.perm_insertionSort _ l, List.sorted_insertionSort _ l⟩
  · rw [hfst, list_map_eq_self]
    constructor
    · intro h l hl
      have := h l hl
      rw [← this]
      exact List.sorted_insertionSort _ l
    · intro h l hl
      exact (h l hl).insertionSort_eq

/-- Witness for `c9_meas_map_sorted_in_place` at the description `[[1, 0]]`. -/
theorem c9_meas_map_sorted_in_place_witness :
    (formatMeasMap [[1, 0]]).1 = [[1, 0]].map pySort
    ∧ (∀ l ∈ [[1, 0]], (pySort l).Perm l ∧ (pySort l).Sorted (· ≤ ·))
    ∧ ((formatMeasMap [[1, 0]]).1 = [[1, 0]] ↔
        ∀ l ∈ [[1, 0]], l.Sorted (· ≤ ·)) :=
  c9_meas_map_sorted_in_place [[1, 0]]

/-- C10.  `TimeslotCollection.__eq__` compares the receiver's per-channel
lists against themselves, so the equality test reduces exactly to equality of
the channel sets — the intervals stored on the other collection's channels are
never inspected. -/
theorem c10_eq_is_channel_set_eq (a b : TimeslotCollection) :
    a.eq b = chanSetEqb a.channels b.channels := by
  unfold TimeslotCollection.eq
  split_ifs with h
  · simp [h, List.all_eq_true]
  · simp [Bool.not_eq_true] at h
    simp [h]

end QiskitPulse
